import Mathlib

/-!
Verification development for the AccountingApp personal finance tracker.

The Python sources are shallowly embedded: float amounts become rationals,
`datetime.date` becomes a year/month/day structure, mutation of controller
state becomes explicit state passing, and Python exceptions become `Except`
values. Dynamic attributes set outside the dataclass definition are modelled
with `Option` fields (with `none` meaning the attribute is absent).
-/

namespace AccountingApp

/-- Embedding of `datetime.date`: a calendar date as plain numerals.
Comparison of Python dates is lexicographic on (year, month, day). -/
structure PyDate where
  year : Nat
  month : Nat
  day : Nat
deriving DecidableEq

/-- Lexicographic order on dates, matching `datetime.date` comparison. -/
def PyDate.le (a b : PyDate) : Prop :=
  a.year < b.year ∨ (a.year = b.year ∧ (a.month < b.month ∨
    (a.month = b.month ∧ a.day ≤ b.day)))

instance : DecidablePred (fun p : PyDate × PyDate => PyDate.le p.1 p.2) :=
  fun _ => by unfold PyDate.le; infer_instance

instance (a b : PyDate) : Decidable (PyDate.le a b) := by
  unfold PyDate.le; infer_instance

/-- Gregorian leap-year rule, as used by `datetime`. -/
def isLeapYear (y : Nat) : Bool :=
  y % 4 == 0 && (y % 100 != 0 || y % 400 == 0)

/-- Number of days in a month, as validated by `datetime.date`. -/
def daysInMonth (y m : Nat) : Nat :=
  if m = 2 then (if isLeapYear y then 29 else 28)
  else if m = 4 ∨ m = 6 ∨ m = 9 ∨ m = 11 then 30
  else 31

/-- Split a character list into the groups separated by dash characters
(structural counterpart of splitting the string on dashes). -/
def splitDashes : List Char → List (List Char)
  | [] => [[]]
  | c :: cs =>
    if c = '-' then [] :: splitDashes cs
    else
      match splitDashes cs with
      | [] => [[c]]
      | g :: gs => (c :: g) :: gs

/-- Numeric value of a nonempty all-digit character group; `none` models
the parse failure on anything else. -/
def digitsVal (l : List Char) : Option Nat :=
  if l = [] then none
  else
    l.foldl
      (fun acc c =>
        match acc with
        | none => none
        | some n => if c.isDigit then some (n * 10 + (c.toNat - 48)) else none)
      (some 0)

/-- Embedding of `Record.parse_date` /
`datetime.strptime(date_str, "%Y-%m-%d").date()`: split on the dashes,
require numeric components and a valid calendar date (month 1..12, day
bounded by the month length, year in the `datetime` range 1..9999).
`none` models the `ValueError` raised on an unparseable string. -/
def parse_date (s : String) : Option PyDate :=
  match splitDashes s.data with
  | [ys, ms, ds] =>
    match digitsVal ys, digitsVal ms, digitsVal ds with
    | some y, some m, some d =>
      if 1 ≤ y ∧ y ≤ 9999 ∧ 1 ≤ m ∧ m ≤ 12 ∧ 1 ≤ d ∧ d ≤ daysInMonth y m then
        some ⟨y, m, d⟩
      else
        none
    | _, _, _ => none
  | _ => none

/-- Structural embedding of `str.lower` for the ASCII strings the
repository works with. -/
def lowerStr (s : String) : String :=
  String.mk (s.data.map Char.toLower)

/-- Zero-pad a numeral to two digits, as `strftime` does for `%m` and `%d`. -/
def pad2 (n : Nat) : String :=
  if n < 10 then "0" ++ toString n else toString n

/-- Zero-pad a year to four digits for `%Y`. -/
def pad4 (n : Nat) : String :=
  if n < 10 then "000" ++ toString n
  else if n < 100 then "00" ++ toString n
  else if n < 1000 then "0" ++ toString n
  else toString n

/-- Embedding of `d.strftime("%Y-%m")`, the year-month token used for
budget period comparisons. -/
def monthKey (d : PyDate) : String :=
  pad4 d.year ++ "-" ++ pad2 d.month

/-- Embedding of `d.isoformat()` / `d.strftime("%Y-%m-%d")`. -/
def isoformat (d : PyDate) : String :=
  pad4 d.year ++ "-" ++ pad2 d.month ++ "-" ++ pad2 d.day

/-- Embedding of `src/models/record.py` `Record`: one income or expense
transaction. Float amounts are modelled as rationals. -/
structure Record where
  record_id : Int
  amount : ℚ
  r_type : String
  category : String
  note : String
  record_date : PyDate
  store : String
deriving DecidableEq

/-- Embedding of `src/models/budget.py` `Budget`. The dataclass declares
only `monthly_goal` and `current_spending`; the `month` attribute read and
written by `RecordController.set_budget` and by the test suite is not a
field of the dataclass. Python allows setting it dynamically on an
instance, so it is modelled as an `Option` with `none` for an absent
attribute. Every constructor in the source leaves it absent. -/
structure Budget where
  monthly_goal : ℚ
  current_spending : ℚ
  month : Option String
deriving DecidableEq

/-- `Budget(monthly_goal=g)`: `current_spending` defaults to 0 and the
dynamic `month` attribute is absent. -/
def mkBudget (g : ℚ) : Budget :=
  { monthly_goal := g, current_spending := 0, month := none }

/-- Embedding of `Budget.set_budget`: update only the goal. -/
def Budget.setGoal (b : Budget) (amount : ℚ) : Budget :=
  { b with monthly_goal := amount }

/-- Embedding of `Budget.add_spending`: unvalidated increment. -/
def Budget.add_spending (b : Budget) (amount : ℚ) : Budget :=
  { b with current_spending := b.current_spending + amount }

/-- In-memory state of `RecordController`: the record list and the budget.
Categories and the storage collaborator are irrelevant to the claims about
records and the budget; persistence is a synchronous whole-file rewrite
with no feedback into control flow. -/
structure ControllerState where
  records : List Record
  budget : Budget
deriving DecidableEq

/-- Embedding of `RecordController._get_next_record_id`:
`max(r.record_id for r in records) + 1`, or 1 on an empty list. -/
def get_next_record_id (records : List Record) : Int :=
  match records with
  | [] => 1
  | r :: rs => (rs.foldl (fun acc x => max acc x.record_id) r.record_id) + 1

/-- Embedding of `RecordController.create_record`. Appends the new record
and, only when the type is expense and the record month equals the current
wall-clock month (`today`), forwards the amount to `Budget.add_spending`. -/
def create_record (st : ControllerState) (amount : ℚ) (r_type category : String)
    (record_date : PyDate) (note store : String) (today : PyDate) :
    ControllerState × Record :=
  let new_id := get_next_record_id st.records
  let record : Record :=
    { record_id := new_id, amount := amount, r_type := r_type,
      category := category, note := note, record_date := record_date,
      store := store }
  let records₂ := st.records ++ [record]
  let budget₂ :=
    if r_type = "expense" ∧ monthKey record_date = monthKey today then
      st.budget.add_spending amount
    else
      st.budget
  ({ records := records₂, budget := budget₂ }, record)

/-- Embedding of `RecordController.delete_record`: remove the first record
with the given id; if it is an expense, first floor-subtract its amount
from the budget counter (regardless of the record month). Returns the
Python boolean result together with the new record list and budget. -/
def delete_record : List Record → Budget → Int → Bool × List Record × Budget
  | [], b, _ => (false, [], b)
  | r :: rs, b, id =>
    if r.record_id = id then
      (true, rs,
        if r.r_type = "expense" then
          { b with current_spending := max 0 (b.current_spending - r.amount) }
        else b)
    else
      ((delete_record rs b id).1, r :: (delete_record rs b id).2.1,
        (delete_record rs b id).2.2)

/-- Embedding of `RecordController.get_record`: first record with the id. -/
def get_record : List Record → Int → Option Record
  | [], _ => none
  | r :: rs, id => if r.record_id = id then some r else get_record rs id

/-- Python exceptions that the embedded operations can raise. -/
inductive PyError where
  | attributeError
  | typeError
deriving DecidableEq

/-- Embedding of `RecordController.set_budget`. The source reads
`self.budget.month`; since the `Budget` dataclass has no such field, the
read raises `AttributeError` whenever the attribute was never assigned.
When the attribute exists but differs from the current month, the source
evaluates `Budget(monthly_goal=amount, month=current_month)`, which raises
`TypeError` because the generated dataclass constructor accepts no `month`
keyword. Only a matching stored month reaches `Budget.set_budget`. -/
def set_budget (st : ControllerState) (amount : ℚ) (today : PyDate) :
    Except PyError ControllerState :=
  let current_month := monthKey today
  match st.budget.month with
  | none => .error .attributeError
  | some m =>
    if m ≠ current_month then
      .error .typeError
    else
      .ok { st with budget := st.budget.setGoal amount }

/-- Values passed as keyword-argument updates to
`RecordController.update_record`. The repository only ever assigns a value
of the runtime type of the field it names (numbers to `amount`, strings to
the string fields, a string or a date to `record_date`), so the embedding
carries a typed sum. -/
inductive UpdVal where
  | vnum (q : ℚ)
  | vstr (s : String)
  | vdate (d : PyDate)
deriving DecidableEq

/-- Embedding of `hasattr(record, key)`: the attribute names of `Record`. -/
def hasattrKey (k : String) : Bool :=
  k = "record_id" ∨ k = "amount" ∨ k = "r_type" ∨ k = "category" ∨
    k = "note" ∨ k = "record_date" ∨ k = "store"

/-- Embedding of `setattr(record, key, value)` for attribute names of
`Record`. Python `setattr` would also store a value of the wrong runtime
type in a field (for example a string in `amount`); the typed embedding
represents only the type-correct assignments, which are the only ones the
repository performs — a mismatched pair leaves the field unchanged and no
theorem below exercises that path. Keys failing `hasattrKey` never reach
this function. -/
def setattrRecord (r : Record) (k : String) (v : UpdVal) : Record :=
  if k = "amount" then
    match v with
    | .vnum q => { r with amount := q }
    | _ => r
  else if k = "r_type" then
    match v with
    | .vstr s => { r with r_type := s }
    | _ => r
  else if k = "category" then
    match v with
    | .vstr s => { r with category := s }
    | _ => r
  else if k = "note" then
    match v with
    | .vstr s => { r with note := s }
    | _ => r
  else if k = "store" then
    match v with
    | .vstr s => { r with store := s }
    | _ => r
  else if k = "record_date" then
    match v with
    | .vdate d => { r with record_date := d }
    | _ => r
  else
    r

/-- The cast step of the `update_record` loop body: a string supplied for
`record_date` is parsed first; `none` models the `ValueError` branch that
makes the method return `False`. Any other value passes through. -/
def castValue (k : String) (v : UpdVal) : Option UpdVal :=
  if k = "record_date" then
    match v with
    | .vstr s => (parse_date s).map UpdVal.vdate
    | _ => some v
  else
    some v

/-- The `for key, value in kwargs.items()` loop of
`RecordController.update_record`, acting on the record being mutated in
place. Returns the Python boolean result and the record as mutated so far
(on the `ValueError` branch the updates already applied stay applied). -/
def applyKwargs : Record → List (String × UpdVal) → Bool × Record
  | r, [] => (true, r)
  | r, (k, v) :: rest =>
    if hasattrKey k then
      match castValue k v with
      | none => (false, r)
      | some v₂ => applyKwargs (setattrRecord r k v₂) rest
    else
      applyKwargs r rest

/-- Replace the first record with the given id. Models the fact that the
object mutated by `update_record` is aliased inside `self.records`. -/
def replaceFirst : List Record → Int → Record → List Record
  | [], _, _ => []
  | r :: rs, id, r₂ =>
    if r.record_id = id then r₂ :: rs else r :: replaceFirst rs id r₂

/-- Embedding of `RecordController.update_record`. Unknown id: returns
`False` and changes nothing. Otherwise the kwargs loop runs on the aliased
record object; even when the loop aborts on an unparseable date string,
the mutations applied before the failing key remain in the list (only the
persistence call is skipped, which has no effect on in-memory state). -/
def update_record (records : List Record) (id : Int)
    (kwargs : List (String × UpdVal)) : Bool × List Record :=
  match get_record records id with
  | none => (false, records)
  | some rec =>
    ((applyKwargs rec kwargs).1,
      replaceFirst records id (applyKwargs rec kwargs).2)

/-- The `spent` computation of `RecordController.get_budget_status_detail`:
sum of amounts of the records whose type is expense and whose date has the
current year and month. The `hasattr`/`isinstance` guards of the source
always hold in the typed embedding. -/
def spentThisMonth (st : ControllerState) (today : PyDate) : ℚ :=
  ((st.records.filter (fun r =>
    decide (r.r_type = "expense" ∧ r.record_date.year = today.year ∧
      r.record_date.month = today.month))).map (fun r => r.amount)).sum

/-- Embedding of the level computed by
`RecordController.get_budget_status_detail`. The controller constructor
always assigns a `Budget`, so the `budget is None` branch of the source is
unreachable; the `not limit or limit <= 0` guard is kept verbatim. The
long Chinese message text returned alongside the level is presentation
output and is elided; no claim constrains it. -/
def get_budget_status_level (st : ControllerState) (today : PyDate) : String :=
  let limit := st.budget.monthly_goal
  if limit = 0 ∨ limit ≤ 0 then
    "no_budget"
  else
    let spent := spentThisMonth st today
    let ratio := if 0 < limit then spent / limit else 0
    if ratio < 1 / 2 then "normal"
    else if ratio < 4 / 5 then "tight"
    else if ratio < 1 then "warning"
    else "over"

/-- One month bucket of `Statistics.get_trend_analysis`. -/
structure Bucket where
  income : ℚ
  expense : ℚ
  balance : ℚ
deriving DecidableEq

/-- Is a key present in the association list modelling the result dict. -/
def containsKey (m : List (String × Bucket)) (k : String) : Bool :=
  m.any (fun p => p.1 = k)

/-- Update the value stored at an existing key (first occurrence; keys are
unique by construction, mirroring dict semantics). -/
def updateKey : List (String × Bucket) → String → (Bucket → Bucket) →
    List (String × Bucket)
  | [], _, _ => []
  | (a, b) :: t, k, f =>
    if a = k then (a, f b) :: t else (a, b) :: updateKey t k f

/-- The loop body of `Statistics.get_trend_analysis`: default-insert the
month bucket, add the amount to income or expense, then recompute that
bucket balance from its updated totals. -/
def trendStep (acc : List (String × Bucket)) (r : Record) :
    List (String × Bucket) :=
  let key := monthKey r.record_date
  let acc₂ :=
    if containsKey acc key then acc
    else acc ++ [(key, { income := 0, expense := 0, balance := 0 })]
  updateKey acc₂ key (fun b =>
    let b₂ :=
      if r.r_type = "income" then { b with income := b.income + r.amount }
      else { b with expense := b.expense + r.amount }
    { b₂ with balance := b₂.income - b₂.expense })

/-- Embedding of `Statistics.get_trend_analysis`: fold the records into a
month-keyed mapping, modelled as an insertion-ordered association list. -/
def get_trend_analysis (records : List Record) : List (String × Bucket) :=
  records.foldl trendStep []

/-- The expense records of a collection, as selected by `analysis.py`. -/
def expensesOf (records : List Record) : List Record :=
  records.filter (fun r => decide (r.r_type = "expense"))

/-- Total expense amount, `sum(r.amount for r in expenses)`. -/
def totalExpense (records : List Record) : ℚ :=
  ((expensesOf records).map (fun r => r.amount)).sum

/-- Bump the count of a key in an insertion-ordered tally, as a Python
`Counter`/dict does. -/
def bump : List (String × Nat) → String → List (String × Nat)
  | [], k => [(k, 1)]
  | (a, n) :: t, k =>
    if a = k then (a, n + 1) :: t else (a, n) :: bump t k

/-- Embedding of `Counter(r.category for r in expenses if r.category)`:
occurrence counts of the nonempty category names of the expense records,
in first-occurrence order. Note this counts records: it does not sum their
amounts. -/
def categoryCounter (records : List Record) : List (String × Nat) :=
  ((expensesOf records).filter (fun r => decide (r.category ≠ ""))).foldl
    (fun acc r => bump acc r.category) []

/-- Same for `Counter(r.store for r in expenses if r.store)`. -/
def storeCounter (records : List Record) : List (String × Nat) :=
  ((expensesOf records).filter (fun r => decide (r.store ≠ ""))).foldl
    (fun acc r => bump acc r.store) []

/-- Stable descending insertion by count: an element is placed before the
first strictly smaller count, after equal counts seen earlier. -/
def insDesc (p : String × Nat) : List (String × Nat) → List (String × Nat)
  | [] => [p]
  | q :: t => if q.2 ≤ p.2 then p :: q :: t else q :: insDesc p t

/-- Embedding of `Counter.most_common(n)`: stable sort by count descending
(`heapq.nlargest` is documented as equivalent to a stable reverse-sorted
slice), then take `n`. -/
def most_common (l : List (String × Nat)) (n : Nat) : List (String × Nat) :=
  (l.foldr insDesc []).take n

/-- `top_categories` of `Analysis.generate_suggestions`. -/
def top_categories (records : List Record) : List (String × Nat) :=
  most_common (categoryCounter records) 3

/-- `top_stores` of `Analysis.generate_suggestions`. -/
def top_stores (records : List Record) : List (String × Nat) :=
  most_common (storeCounter records) 3

/-- The category-concentration branch of `Analysis.generate_suggestions`
section three, reduced to a tag naming which message is emitted. The
source computes `top_ratio = top_amount / total_expense` where
`top_amount` is the occurrence count from the `Counter`, and emits the
strong warning at ratio ≥ 0.5, the milder note at ratio ≥ 0.3, and the
balanced note otherwise. Empty inputs take the early-return branches. -/
def concentrationBranch (records : List Record) : String :=
  if records = [] then "no_records"
  else if expensesOf records = [] then "no_expenses"
  else
    match top_categories records with
    | [] => "no_category_info"
    | (_, cnt) :: _ =>
      let total := totalExpense records
      let ratio : ℚ := if 0 < total then (cnt : ℚ) / total else 0
      if 1 / 2 ≤ ratio then "high_concentration"
      else if 3 / 10 ≤ ratio then "medium_concentration"
      else "balanced"

/-- Sum of expense amounts per category, following the words of the spec
(top categories "ranked by total expense amount (sum of amounts)"). Stated
only to compare the source ranking against the spec ranking. -/
def specCategoryExpenseSum (records : List Record) (cat : String) : ℚ :=
  (((expensesOf records).filter (fun r => decide (r.category = cat))).map
    (fun r => r.amount)).sum

/-- Python truthiness of an optional string: `None` and the empty string
are falsy. -/
def truthyStr : Option String → Bool
  | none => false
  | some s => s ≠ ""

/-- The history entry built by `SearchEngine.advanced_search`:
`f"advanced:{store or '-'}:{category or '-'}:{start...}:{end...}"`. -/
def advancedDesc (store category : Option String)
    (start stop : Option PyDate) : String :=
  let sStr := match store with
    | some s => if s ≠ "" then s else "-"
    | none => "-"
  let cStr := match category with
    | some s => if s ≠ "" then s else "-"
    | none => "-"
  let stStr := match start with
    | some d => isoformat d
    | none => "-"
  let enStr := match stop with
    | some d => isoformat d
    | none => "-"
  "advanced:" ++ sStr ++ ":" ++ cStr ++ ":" ++ stStr ++ ":" ++ enStr

/-- Embedding of `SearchEngine.advanced_search` over the engine state
(record list plus history). The guards `if store:` and `if category:` test
Python truthiness, so an empty string filter is skipped; the date range
applies only when both bounds are present (`if start and end:`, dates are
always truthy). Lowercasing models `str.lower` on the ASCII strings used
throughout. Returns the result list and the new history. -/
def advanced_search (records : List Record) (history : List String)
    (store category : Option String) (start stop : Option PyDate) :
    List Record × List String :=
  let result := records
  let result :=
    match store with
    | some s =>
      if s ≠ "" then
        result.filter (fun r => decide (lowerStr r.store = lowerStr s))
      else result
    | none => result
  let result :=
    match category with
    | some s =>
      if s ≠ "" then
        result.filter (fun r => decide (lowerStr r.category = lowerStr s))
      else result
    | none => result
  let result :=
    match start, stop with
    | some d₁, some d₂ =>
      result.filter (fun r =>
        decide (PyDate.le d₁ r.record_date ∧ PyDate.le r.record_date d₂))
    | _, _ => result
  (result, history ++ [advancedDesc store category start stop])

/-- One mutation of the record store, for reasoning about operation
sequences: a `create_record` call or a `delete_record` call. -/
inductive Op where
  | create (amount : ℚ) (r_type category : String) (d : PyDate)
      (note store : String)
  | delete (id : Int)

/-- Run one operation through the embedded controller methods. -/
def runOp (today : PyDate) (st : ControllerState) : Op → ControllerState
  | .create amount r_type category d note store =>
    (create_record st amount r_type category d note store today).1
  | .delete id =>
    let out := delete_record st.records st.budget id
    { records := out.2.1, budget := out.2.2 }

/-- Run a sequence of operations. -/
def runOps (today : PyDate) (st : ControllerState) (ops : List Op) :
    ControllerState :=
  ops.foldl (runOp today) st

/-- A record that is an expense dated in the current wall-clock month with
a non-negative amount. -/
def RecOK (today : PyDate) (r : Record) : Prop :=
  r.r_type = "expense" ∧ monthKey r.record_date = monthKey today ∧
    0 ≤ r.amount

instance (today : PyDate) (r : Record) : Decidable (RecOK today r) := by
  unfold RecOK; infer_instance

/-- The operations the budget invariant claim quantifies over: creations
are expense transactions dated in the current month with non-negative
amounts; deletions are unrestricted. -/
def OpOK (today : PyDate) : Op → Prop
  | .create amount r_type _ d _ _ =>
    r_type = "expense" ∧ monthKey d = monthKey today ∧ 0 ≤ amount
  | .delete _ => True

instance (today : PyDate) (op : Op) : Decidable (OpOK today op) := by
  cases op <;> (unfold OpOK; infer_instance)

/-- Sum of the amounts of a record list. -/
def amountSum (l : List Record) : ℚ :=
  (l.map (fun r => r.amount)).sum

/-- Sum of the amounts of the expense transactions dated in the current
month, the quantity the budget counter is claimed to track. -/
def monthExpenseSum (today : PyDate) (l : List Record) : ℚ :=
  amountSum (l.filter (fun r =>
    decide (r.r_type = "expense" ∧ monthKey r.record_date = monthKey today)))

/-- The budget status tiers exactly as the spec words them, with two-sided
bounds: ratio < 0.5 normal, 0.5 ≤ ratio < 0.8 tight, 0.8 ≤ ratio < 1
warning, 1 ≤ ratio over. Stated to compare the source branch structure
against the spec intervals. -/
def tierSpec (ratio : ℚ) : String :=
  if ratio < 1 / 2 then "normal"
  else if 1 / 2 ≤ ratio ∧ ratio < 4 / 5 then "tight"
  else if 4 / 5 ≤ ratio ∧ ratio < 1 then "warning"
  else "over"

/-- A fixed current date for the concrete evaluations below. -/
def dToday : PyDate := ⟨2025, 12, 23⟩

/-- Fresh controller state: no records, `Budget(monthly_goal=0.0)` as in
the `RecordController` constructor with no stored budget. -/
def freshState : ControllerState :=
  { records := [], budget := mkBudget 0 }

/-- A state whose budget carries a stale dynamically-assigned month. -/
def staleMonthState : ControllerState :=
  { records := [],
    budget := { monthly_goal := 1000, current_spending := 0,
                month := some "2025-11" } }

/-- A December 2025 expense record of 600. -/
def recExp600 : Record :=
  { record_id := 1, amount := 600, r_type := "expense", category := "food",
    note := "", record_date := ⟨2025, 12, 5⟩, store := "A" }

/-- State where the cached counter (0) disagrees with the recomputed sum
of this-month expenses (600): arises for example after the counter was
loaded fresh while records were already on disk. -/
def driftState : ControllerState :=
  { records := [recExp600],
    budget := { monthly_goal := 1000, current_spending := 0, month := none } }

/-- An income record used by the update counterexamples. -/
def recInc10 : Record :=
  { record_id := 1, amount := 10, r_type := "income", category := "salary",
    note := "", record_date := ⟨2025, 12, 1⟩, store := "" }

/-- Kwargs supplying an amount update followed by an unparseable date. -/
def kwBadDate : List (String × UpdVal) :=
  [("amount", .vnum 99), ("record_date", .vstr "2025-99-99")]

/-- Expense records where category A holds one record of amount 100 and
category B holds two records of amount 10 each. -/
def analysisRecords : List Record :=
  [{ record_id := 1, amount := 100, r_type := "expense", category := "A",
     note := "", record_date := ⟨2025, 12, 1⟩, store := "S1" },
   { record_id := 2, amount := 10, r_type := "expense", category := "B",
     note := "", record_date := ⟨2025, 12, 2⟩, store := "S2" },
   { record_id := 3, amount := 10, r_type := "expense", category := "B",
     note := "", record_date := ⟨2025, 12, 3⟩, store := "S2" }]

/-- State with goal 1000 and exactly 500 spent this month. -/
def halfState : ControllerState :=
  { records := [{ record_id := 1, amount := 500, r_type := "expense",
                  category := "food", note := "",
                  record_date := ⟨2025, 12, 2⟩, store := "" }],
    budget := { monthly_goal := 1000, current_spending := 500,
                month := none } }

/-- Two same-month records for the trend witness. -/
def trendRecords : List Record :=
  [{ record_id := 1, amount := 30, r_type := "income", category := "pay",
     note := "", record_date := ⟨2025, 12, 1⟩, store := "" },
   { record_id := 2, amount := 12, r_type := "expense", category := "food",
     note := "", record_date := ⟨2025, 12, 9⟩, store := "" }]

/-- A record whose store is the nonempty string X. -/
def recStoreX : Record :=
  { record_id := 1, amount := 5, r_type := "expense", category := "c",
    note := "", record_date := ⟨2025, 12, 1⟩, store := "X" }

/-- Invariant carried through C2 operation sequences: every stored record
is a current-month expense with non-negative amount, and the budget
counter equals the sum of the stored amounts. -/
def StInv (today : PyDate) (st : ControllerState) : Prop :=
  (∀ r ∈ st.records, RecOK today r) ∧
    st.budget.current_spending = amountSum st.records

/-- A keyword update that does not trigger the `ValueError` branch of the
update loop: either its key is skipped by `hasattr`, or its cast succeeds. -/
def updGood (kv : String × UpdVal) : Bool :=
  if hasattrKey kv.1 then (castValue kv.1 kv.2).isSome else true

/-- Total function applying one keyword update the way the loop body does
on its non-raising paths (a failing cast leaves the record unchanged; it
is only used under an `updGood` hypothesis). -/
def applyOneT (r : Record) (kv : String × UpdVal) : Record :=
  if hasattrKey kv.1 then
    match castValue kv.1 kv.2 with
    | some v => setattrRecord r kv.1 v
    | none => r
  else r

/-- Apply a list of keyword updates in order. -/
def applyList (r : Record) (l : List (String × UpdVal)) : Record :=
  l.foldl applyOneT r

/-- The `if store:` narrowing stage of `advanced_search` as a function of
the intermediate result list. -/
def stageStore (store : Option String) (l : List Record) : List Record :=
  match store with
  | some s =>
    if s ≠ "" then l.filter (fun r => decide (lowerStr r.store = lowerStr s))
    else l
  | none => l

/-- The `if category:` narrowing stage of `advanced_search`. -/
def stageCategory (category : Option String) (l : List Record) :
    List Record :=
  match category with
  | some s =>
    if s ≠ "" then
      l.filter (fun r => decide (lowerStr r.category = lowerStr s))
    else l
  | none => l

/-- The `if start and end:` narrowing stage of `advanced_search`. -/
def stageRange (start stop : Option PyDate) (l : List Record) :
    List Record :=
  match start, stop with
  | some d₁, some d₂ =>
    l.filter (fun r =>
      decide (PyDate.le d₁ r.record_date ∧ PyDate.le r.record_date d₂))
  | _, _ => l

/-- Amended-spec predicate for the store filter: a record passes when the
filter is absent or empty (Python truthiness) or matches the store
case-insensitively and exactly. -/
def passStore (store : Option String) (r : Record) : Bool :=
  match store with
  | none => true
  | some s => if s = "" then true else lowerStr r.store = lowerStr s

/-- Amended-spec predicate for the category filter, as for the store. -/
def passCategory (category : Option String) (r : Record) : Bool :=
  match category with
  | none => true
  | some s => if s = "" then true else lowerStr r.category = lowerStr s

/-- Amended-spec predicate for the inclusive date range, applied only when
both bounds are supplied. -/
def passRange (start stop : Option PyDate) (r : Record) : Bool :=
  match start, stop with
  | some d₁, some d₂ =>
    decide (PyDate.le d₁ r.record_date ∧ PyDate.le r.record_date d₂)
  | _, _ => true

/-! ## Helper lemmas -/

theorem filterComb {α : Type} (l : List α) (p q : α → Bool) :
    (l.filter p).filter q = l.filter (fun a => p a && q a) := by
  induction l with
  | nil => rfl
  | cons a t ih => cases hp : p a <;> cases hq : q a <;> simp [hp, hq, ih]

theorem amountSum_nil : amountSum [] = 0 := rfl

theorem amountSum_cons (r : Record) (l : List Record) :
    amountSum (r :: l) = r.amount + amountSum l := by
  simp [amountSum]

theorem amountSum_append (l₁ l₂ : List Record) :
    amountSum (l₁ ++ l₂) = amountSum l₁ + amountSum l₂ := by
  simp [amountSum]

theorem amountSum_nonneg (l : List Record) (h : ∀ r ∈ l, 0 ≤ r.amount) :
    0 ≤ amountSum l := by
  induction l with
  | nil => simp [amountSum]
  | cons r t ih =>
    rw [amountSum_cons]
    have h₁ := h r (by simp)
    have h₂ := ih (fun x hx => h x (by simp [hx]))
    linarith

theorem monthExpenseSum_eq_amountSum (today : PyDate) (l : List Record)
    (h : ∀ r ∈ l, RecOK today r) : monthExpenseSum today l = amountSum l := by
  unfold monthExpenseSum
  rw [List.filter_eq_self.mpr]
  intro r hr
  have hrOK := h r hr
  simp [hrOK.1, hrOK.2.1]

/-- Helper: the two-sided spec intervals collapse to the if-elif chain. -/
theorem tierSpec_chain (q : ℚ) :
    tierSpec q =
      if q < 1 / 2 then "normal"
      else if q < 4 / 5 then "tight"
      else if q < 1 then "warning"
      else "over" := by
  unfold tierSpec
  by_cases h1 : q < 1 / 2
  · simp only [one_div] at h1
    simp [h1]
  · have h1l := le_of_not_lt h1
    simp only [one_div] at h1 h1l
    by_cases h2 : q < 4 / 5
    · simp [h1, h2, h1l]
    · have h2l := le_of_not_lt h2
      by_cases h3 : q < 1
      · simp [h1, h2, h3, h1l, h2l]
      · simp [h1, h2, h3, h1l, h2l]

/-- Helper: the status level equals the spec tier of the recomputed ratio,
with the degenerate goal mapped to the no-budget level. -/
theorem statusLevel_eq (st : ControllerState) (today : PyDate) :
    get_budget_status_level st today =
      if st.budget.monthly_goal ≤ 0 then "no_budget"
      else tierSpec (spentThisMonth st today / st.budget.monthly_goal) := by
  unfold get_budget_status_level
  by_cases h0 : st.budget.monthly_goal ≤ 0
  · have hg : st.budget.monthly_goal = 0 ∨ st.budget.monthly_goal ≤ 0 :=
      Or.inr h0
    simp [hg, h0]
  · have hpos : 0 < st.budget.monthly_goal := lt_of_not_ge h0
    have hne : st.budget.monthly_goal ≠ 0 := ne_of_gt hpos
    rw [tierSpec_chain]
    simp [hne, h0, hpos]

theorem applyKwargs_unknown (r : Record) (l : List (String × UpdVal))
    (h : ∀ kv ∈ l, hasattrKey kv.1 = false) : applyKwargs r l = (true, r) := by
  induction l with
  | nil => rfl
  | cons kv t ih =>
    obtain ⟨k, v⟩ := kv
    have hk : hasattrKey k = false := h (k, v) (by simp)
    simp only [applyKwargs, hk, Bool.false_eq_true, if_false]
    exact ih fun kv hkv => h kv (List.mem_cons_of_mem _ hkv)

theorem replaceFirst_found_self (records : List Record) (id : Int)
    (rec : Record) (h : get_record records id = some rec) :
    replaceFirst records id rec = records := by
  induction records with
  | nil => simp [get_record] at h
  | cons r rs ih =>
    by_cases hid : r.record_id = id
    · simp only [get_record, if_pos hid, Option.some.injEq] at h
      subst h
      simp [replaceFirst, hid]
    · simp only [get_record, if_neg hid] at h
      simp [replaceFirst, hid, ih h]

theorem delete_aux (today : PyDate) (records : List Record) :
    ∀ (b : Budget) (id : Int) (C : ℚ),
      (∀ r ∈ records, RecOK today r) → 0 ≤ C →
      b.current_spending = C + amountSum records →
      (∀ r ∈ (delete_record records b id).2.1, RecOK today r) ∧
      (delete_record records b id).2.2.current_spending =
        C + amountSum (delete_record records b id).2.1 := by
  induction records with
  | nil =>
    intro b id C _ _ hspend
    simp only [delete_record]
    exact ⟨by simp, by simpa [amountSum] using hspend⟩
  | cons r rs ih =>
    intro b id C hall hC hspend
    have hr : RecOK today r := hall r (by simp)
    have htail : ∀ x ∈ rs, RecOK today x :=
      fun x hx => hall x (List.mem_cons_of_mem _ hx)
    by_cases hid : r.record_id = id
    · simp only [delete_record, if_pos hid]
      refine ⟨htail, ?_⟩
      rw [if_pos hr.1]
      have hsum : 0 ≤ amountSum rs :=
        amountSum_nonneg rs (fun x hx => (htail x hx).2.2)
      have : b.current_spending - r.amount = C + amountSum rs := by
        rw [hspend, amountSum_cons]
        ring
      rw [this, max_eq_right (by linarith)]
    · simp only [delete_record, if_neg hid]
      have hspend₂ : b.current_spending = (C + r.amount) + amountSum rs := by
        rw [hspend, amountSum_cons]
        ring
      have hC₂ : 0 ≤ C + r.amount := add_nonneg hC hr.2.2
      obtain ⟨hmem, hval⟩ := ih b id (C + r.amount) htail hC₂ hspend₂
      refine ⟨?_, ?_⟩
      · intro x hx
        rcases List.mem_cons.mp hx with hx | hx
        · exact hx ▸ hr
        · exact hmem x hx
      · rw [hval, amountSum_cons]
        ring

theorem runOp_inv (today : PyDate) (st : ControllerState) (op : Op)
    (hinv : StInv today st) (hop : OpOK today op) :
    StInv today (runOp today st op) := by
  obtain ⟨hmem, hval⟩ := hinv
  cases op with
  | create amount r_type category d note store =>
    obtain ⟨hty, hmo, hamt⟩ := hop
    simp only [runOp, create_record]
    constructor
    · intro r hrm
      rcases List.mem_append.mp hrm with hrm | hrm
      · exact hmem r hrm
      · rcases List.mem_singleton.mp hrm with rfl
        exact ⟨hty, hmo, hamt⟩
    · rw [if_pos ⟨hty, hmo⟩]
      simp only [Budget.add_spending, amountSum_append, amountSum_cons,
        amountSum_nil]
      rw [hval]
      ring
  | delete id =>
    simp only [runOp]
    have h := delete_aux today st.records st.budget id 0 hmem (le_refl 0)
      (by rw [hval]; ring)
    exact ⟨h.1, by rw [h.2]; ring⟩

theorem runOps_inv (today : PyDate) (ops : List Op) :
    ∀ st : ControllerState, StInv today st →
      (∀ op ∈ ops, OpOK today op) → StInv today (runOps today st ops) := by
  induction ops with
  | nil => intro st hinv _; exact hinv
  | cons op rest ih =>
    intro st hinv hops
    have h₁ := runOp_inv today st op hinv (hops op (by simp))
    have h₂ := ih (runOp today st op) h₁
      (fun o ho => hops o (List.mem_cons_of_mem _ ho))
    simpa [runOps] using h₂

theorem applyKwargs_good (l : List (String × UpdVal)) :
    ∀ r : Record, (∀ kv ∈ l, updGood kv = true) →
      applyKwargs r l = (true, applyList r l) := by
  induction l with
  | nil => intro r _; rfl
  | cons kv t ih =>
    intro r h
    obtain ⟨k, v⟩ := kv
    have hg : updGood (k, v) = true := h (k, v) (by simp)
    have htail : ∀ x ∈ t, updGood x = true :=
      fun x hx => h x (List.mem_cons_of_mem _ hx)
    by_cases hk : hasattrKey k = true
    · have hsome : (castValue k v).isSome = true := by
        simpa [updGood, hk] using hg
      obtain ⟨v₂, hv₂⟩ := Option.isSome_iff_exists.mp hsome
      simp only [applyKwargs, hk, if_true, hv₂]
      rw [ih _ htail]
      simp [applyList, applyOneT, hk, hv₂]
    · have hk₂ : hasattrKey k = false := by simpa using hk
      simp only [applyKwargs, hk₂, Bool.false_eq_true, if_false]
      rw [ih _ htail]
      simp [applyList, applyOneT, hk₂]

theorem applyKwargs_bad (pre : List (String × UpdVal)) :
    ∀ (r : Record) (bad : String × UpdVal) (post : List (String × UpdVal)),
      (∀ kv ∈ pre, updGood kv = true) → updGood bad = false →
      applyKwargs r (pre ++ bad :: post) = (false, applyList r pre) := by
  induction pre with
  | nil =>
    intro r bad post _ hbad
    obtain ⟨k, v⟩ := bad
    have hk : hasattrKey k = true := by
      by_contra hc
      have hc₂ : hasattrKey k = false := by simpa using hc
      simp [updGood, hc₂] at hbad
    have hcast : castValue k v = none := by
      cases hv : castValue k v with
      | none => rfl
      | some v₂ => simp [updGood, hk, hv] at hbad
    simp [applyKwargs, hk, hcast, applyList]
  | cons kv t ih =>
    intro r bad post h hbad
    obtain ⟨k, v⟩ := kv
    have hg : updGood (k, v) = true := h (k, v) (by simp)
    have htail : ∀ x ∈ t, updGood x = true :=
      fun x hx => h x (List.mem_cons_of_mem _ hx)
    by_cases hk : hasattrKey k = true
    · have hsome : (castValue k v).isSome = true := by
        simpa [updGood, hk] using hg
      obtain ⟨v₂, hv₂⟩ := Option.isSome_iff_exists.mp hsome
      simp only [List.cons_append, applyKwargs, hk, if_true, hv₂,
        List.append_eq]
      rw [ih _ bad post htail hbad]
      simp [applyList, applyOneT, hk, hv₂]
    · have hk₂ : hasattrKey k = false := by simpa using hk
      simp only [List.cons_append, applyKwargs, hk₂, Bool.false_eq_true,
        if_false, List.append_eq]
      rw [ih _ bad post htail hbad]
      simp [applyList, applyOneT, hk₂]

theorem stageStore_eq (store : Option String) (l : List Record) :
    stageStore store l = l.filter (passStore store) := by
  rcases store with _ | s
  · exact (List.filter_eq_self.mpr fun a _ => rfl).symm
  · by_cases hs : s = ""
    · subst hs
      exact (List.filter_eq_self.mpr fun a _ => rfl).symm
    · simp only [stageStore, if_pos hs]
      exact List.filter_congr fun a _ => by simp [passStore, hs]

theorem stageCategory_eq (category : Option String) (l : List Record) :
    stageCategory category l = l.filter (passCategory category) := by
  rcases category with _ | s
  · exact (List.filter_eq_self.mpr fun a _ => rfl).symm
  · by_cases hs : s = ""
    · subst hs
      exact (List.filter_eq_self.mpr fun a _ => rfl).symm
    · simp only [stageCategory, if_pos hs]
      exact List.filter_congr fun a _ => by simp [passCategory, hs]

theorem stageRange_eq (start stop : Option PyDate) (l : List Record) :
    stageRange start stop l = l.filter (passRange start stop) := by
  rcases start with _ | d₁ <;> rcases stop with _ | d₂ <;>
    first
      | exact (List.filter_eq_self.mpr fun a _ => rfl).symm
      | rfl

theorem advanced_search_stages (records : List Record) (history : List String)
    (store category : Option String) (start stop : Option PyDate) :
    (advanced_search records history store category start stop).1 =
      stageRange start stop
        (stageCategory category (stageStore store records)) := by
  rcases store with _ | s <;> rcases category with _ | c <;>
    rcases start with _ | d₁ <;> rcases stop with _ | d₂ <;>
      rfl

theorem applyKwargs_filter (l : List (String × UpdVal)) :
    ∀ r : Record,
      applyKwargs r l =
        applyKwargs r (l.filter (fun kv => hasattrKey kv.1)) := by
  induction l with
  | nil => intro r; rfl
  | cons kv t ih =>
    intro r
    obtain ⟨k, v⟩ := kv
    by_cases hk : hasattrKey k = true
    · rw [List.filter_cons_of_pos (by simpa using hk)]
      simp only [applyKwargs, hk, if_true]
      cases hv : castValue k v with
      | none => rfl
      | some v₂ => exact ih (setattrRecord r k v₂)
    · have hk₂ : hasattrKey k = false := by simpa using hk
      rw [List.filter_cons_of_neg (by simp [hk₂])]
      simp only [applyKwargs, hk₂, Bool.false_eq_true, if_false]
      exact ih r

/-! ## Claim theorems -/

/-- C1: the goal-setting operation never completes normally in any state
the source can construct. Reading the absent `month` attribute raises
`AttributeError`; even when the attribute was assigned externally and the
period differs, the rollover construction raises `TypeError`. The claim
says the operation replaces or updates the budget and returns normally;
the code cannot do either on the rollover path. -/
theorem set_budget_raises :
    set_budget freshState 3000 dToday = Except.error PyError.attributeError ∧
    ∀ (st : ControllerState) (amount : ℚ) (today : PyDate) (m : String),
      st.budget.month = some m → m ≠ monthKey today →
      set_budget st amount today = Except.error PyError.typeError := by
  constructor
  · rfl
  · intro st amount today m hm hne
    unfold set_budget
    rw [hm]
    simp [hne]

/-- Witness for C1 at a concrete stale-month state. -/
theorem set_budget_raises_witness :
    set_budget staleMonthState 3000 dToday = Except.error PyError.typeError :=
  set_budget_raises.2 staleMonthState 3000 dToday "2025-11" rfl (by decide)

/-- C2: starting from an empty store with a zeroed counter, any sequence
of creations of current-month expense transactions (with non-negative
amounts) and deletions leaves the budget counter equal to the sum of the
amounts of the current-month expense transactions created and not yet
deleted, and the counter is non-negative after every prefix of the
sequence. -/
theorem budget_spending_invariant (today : PyDate) (st0 : ControllerState)
    (ops : List Op) (h0 : st0.records = [])
    (hs : st0.budget.current_spending = 0)
    (hops : ∀ op ∈ ops, OpOK today op) :
    (runOps today st0 ops).budget.current_spending =
      monthExpenseSum today (runOps today st0 ops).records ∧
    ∀ n : Nat,
      0 ≤ (runOps today st0 (ops.take n)).budget.current_spending := by
  have hinv0 : StInv today st0 := by
    constructor
    · rw [h0]; intro r hr; exact absurd hr (List.not_mem_nil r)
    · rw [h0, hs, amountSum_nil]
  constructor
  · have h := runOps_inv today ops st0 hinv0 hops
    rw [h.2, monthExpenseSum_eq_amountSum today _ h.1]
  · intro n
    have hops₂ : ∀ op ∈ ops.take n, OpOK today op :=
      fun op hop => hops op ((List.take_sublist n ops).subset hop)
    have h := runOps_inv today (ops.take n) st0 hinv0 hops₂
    rw [h.2]
    exact amountSum_nonneg _ (fun r hr => (h.1 r hr).2.2)

/-- Witness for C2: create a 100 expense this month, then delete it. -/
theorem budget_spending_invariant_witness :
    (runOps dToday freshState
      [Op.create 100 "expense" "food" ⟨2025, 12, 1⟩ "" "",
       Op.delete 1]).budget.current_spending =
      monthExpenseSum dToday
        (runOps dToday freshState
          [Op.create 100 "expense" "food" ⟨2025, 12, 1⟩ "" "",
           Op.delete 1]).records :=
  (budget_spending_invariant dToday freshState
    [Op.create 100 "expense" "food" ⟨2025, 12, 1⟩ "" "", Op.delete 1]
    rfl rfl (by decide)).1

/-- C3 counterexample: in a state where the cached counter (0) disagrees
with the recomputed sum of this-month expenses (600 of a 1000 goal), the
status level is the one derived from the recomputed sum (tight), while
the tier of the cached-counter ratio claimed by the spec is normal. -/
theorem status_counter_cex :
    get_budget_status_level driftState dToday = "tight" ∧
    tierSpec (driftState.budget.current_spending /
      driftState.budget.monthly_goal) = "normal" ∧
    driftState.budget.current_spending ≠ spentThisMonth driftState dToday := by
  have hs : spentThisMonth driftState dToday = 600 := by
    simp [spentThisMonth, driftState, recExp600, dToday]
  refine ⟨?_, ?_, ?_⟩
  · rw [statusLevel_eq, hs]
    norm_num [driftState, tierSpec]
  · norm_num [driftState, tierSpec]
  · rw [hs]
    norm_num [driftState]

/-- C3 amended: the budget status query recomputes spending from the full
record list on every call (summing expense records dated in the current
wall-clock year and month), reports no_budget whenever the goal is not
positive, and otherwise tiers the recomputed ratio; the cached counter is
not consulted. -/
theorem status_recomputed (st : ControllerState) (today : PyDate) :
    get_budget_status_level st today =
      if st.budget.monthly_goal ≤ 0 then "no_budget"
      else tierSpec (spentThisMonth st today / st.budget.monthly_goal) :=
  statusLevel_eq st today

/-- C6: with a positive goal, the level is determined by the spending
ratio with half-open lower bounds: normal below one half, tight from one
half up to four fifths, warning from four fifths up to one, over from one
upward. -/
theorem status_tier_boundaries (st : ControllerState) (today : PyDate)
    (h : 0 < st.budget.monthly_goal) :
    ((get_budget_status_level st today = "normal") ↔
      spentThisMonth st today / st.budget.monthly_goal < 1 / 2) ∧
    ((get_budget_status_level st today = "tight") ↔
      (1 / 2 ≤ spentThisMonth st today / st.budget.monthly_goal ∧
        spentThisMonth st today / st.budget.monthly_goal < 4 / 5)) ∧
    ((get_budget_status_level st today = "warning") ↔
      (4 / 5 ≤ spentThisMonth st today / st.budget.monthly_goal ∧
        spentThisMonth st today / st.budget.monthly_goal < 1)) ∧
    ((get_budget_status_level st today = "over") ↔
      1 ≤ spentThisMonth st today / st.budget.monthly_goal) := by
  have h0 : ¬ st.budget.monthly_goal ≤ 0 := not_le.mpr h
  rw [statusLevel_eq st today, if_neg h0]
  set q := spentThisMonth st today / st.budget.monthly_goal with hq
  unfold tierSpec
  by_cases h1 : q < 1 / 2
  · have a1 : ¬ (1 / 2 ≤ q) := not_le.mpr h1
    have a2 : ¬ (4 / 5 ≤ q) := by intro hc; rw [hq] at *; linarith
    have a3 : ¬ (1 ≤ q) := by intro hc; rw [hq] at *; linarith
    have a4 : q < 4 / 5 := by rw [hq] at *; linarith
    have a5 : q < 1 := by rw [hq] at *; linarith
    simp only [one_div] at h1 a1 a2 a3 a4 a5
    simp [h1, a1, a2, a3, a4, a5]
  · have h1l : 1 / 2 ≤ q := le_of_not_lt h1
    by_cases h2 : q < 4 / 5
    · have b1 : ¬ (4 / 5 ≤ q) := not_le.mpr h2
      have b2 : ¬ (1 ≤ q) := by intro hc; rw [hq] at *; linarith
      have b3 : q < 1 := by rw [hq] at *; linarith
      simp only [one_div] at h1 h1l h2 b1 b2 b3
      simp [h1, h1l, h2, b1, b2, b3]
    · have h2l : 4 / 5 ≤ q := le_of_not_lt h2
      by_cases h3 : q < 1
      · have c1 : ¬ (1 ≤ q) := not_le.mpr h3
        simp only [one_div] at h1 h1l h2 h2l h3 c1
        simp [h1, h1l, h2, h2l, h3, c1]
      · have h3l : 1 ≤ q := le_of_not_lt h3
        simp only [one_div] at h1 h1l h2 h2l h3 h3l
        simp [h1, h1l, h2, h2l, h3, h3l]

/-- Witness for C6: 500 spent of a 1000 goal, a ratio of exactly one
half, yields the tight level. -/
theorem status_tier_boundaries_witness :
    get_budget_status_level halfState dToday = "tight" := by
  have hs : spentThisMonth halfState dToday = 500 := by
    simp [spentThisMonth, halfState, dToday]
  exact ((status_tier_boundaries halfState dToday
    (by norm_num [halfState])).2.1).mpr (by rw [hs]; norm_num [halfState])

/-- C7: deletion of an unknown id returns false and changes neither the
record list nor the budget; deletion of a known id removes exactly the
first matching record and floor-subtracts its amount from the counter
precisely when its kind is expense (with no condition on its date), and
a non-negative counter stays non-negative. -/
theorem delete_record_spec (records : List Record) (b : Budget) (id : Int) :
    ((∀ r ∈ records, r.record_id ≠ id) →
      delete_record records b id = (false, records, b)) ∧
    (∀ pre rec post, records = pre ++ rec :: post → rec.record_id = id →
      (∀ r ∈ pre, r.record_id ≠ id) →
      delete_record records b id = (true, pre ++ post,
        if rec.r_type = "expense" then
          { b with current_spending := max 0 (b.current_spending - rec.amount) }
        else b)) ∧
    (0 ≤ b.current_spending →
      0 ≤ (delete_record records b id).2.2.current_spending) := by
  refine ⟨?_, ?_, ?_⟩
  · intro h
    induction records with
    | nil => rfl
    | cons r rs ih =>
      have hr : r.record_id ≠ id := h r (by simp)
      have htail := ih (fun x hx => h x (List.mem_cons_of_mem _ hx))
      simp only [delete_record, if_neg hr, htail]
  · intro pre
    induction pre generalizing records with
    | nil =>
      intro rec post hrec hid _
      subst hrec
      simp only [delete_record, if_pos hid, List.nil_append]
    | cons p t ih =>
      intro rec post hrec hid hpre
      subst hrec
      have hp : p.record_id ≠ id := hpre p (by simp)
      have htail := ih (t ++ rec :: post) rec post rfl hid
        (fun x hx => hpre x (List.mem_cons_of_mem _ hx))
      simp only [List.cons_append, delete_record, if_neg hp,
        List.append_eq, htail]
  · intro hb
    induction records with
    | nil => simpa [delete_record] using hb
    | cons r rs ih =>
      by_cases hid : r.record_id = id
      · simp only [delete_record, if_pos hid]
        by_cases hty : r.r_type = "expense"
        · simp only [if_pos hty]
          exact le_max_left 0 _
        · simpa [if_neg hty] using hb
      · simpa only [delete_record, if_neg hid] using ih

/-- Witness for C7: deleting the only record, an expense of 600 against a
counter of 0, removes it and floors the counter at zero. -/
theorem delete_record_spec_witness :
    delete_record [recExp600] (mkBudget 100) 1 =
      (true, [],
        { monthly_goal := 100, current_spending := 0, month := none }) := by
  have h := (delete_record_spec [recExp600] (mkBudget 100) 1).2.1
    [] recExp600 [] rfl rfl (by intro r hr; exact absurd hr (List.not_mem_nil r))
  rw [h]
  norm_num [recExp600, mkBudget]

/-- C5: the advisor ranks categories and counterparties by occurrence
count, not by summed amount, and compares that count against the expense
total. At this input, category A carries 100 of the 120 total expense
(a share of five sixths, above the 50 percent warning threshold claimed
by the spec), yet the code ranks B (two records summing to 20) first and
emits the balanced-categories note. -/
theorem analysis_ranks_by_count :
    top_categories analysisRecords = [("B", 2), ("A", 1)] ∧
    top_stores analysisRecords = [("S2", 2), ("S1", 1)] ∧
    concentrationBranch analysisRecords = "balanced" ∧
    1 / 2 ≤ specCategoryExpenseSum analysisRecords "A" /
      totalExpense analysisRecords := by
  have he : expensesOf analysisRecords = analysisRecords := by
    simp [expensesOf, analysisRecords]
  have ht : totalExpense analysisRecords = 120 := by
    rw [totalExpense, he]
    norm_num [analysisRecords]
  have htc : top_categories analysisRecords = [("B", 2), ("A", 1)] := by
    decide
  have hA : specCategoryExpenseSum analysisRecords "A" = 100 := by
    rw [specCategoryExpenseSum, he]
    simp [analysisRecords]
  refine ⟨htc, by decide, ?_, ?_⟩
  · rw [concentrationBranch.eq_def, htc, he, ht]
    simp [analysisRecords]
    norm_num
  · rw [hA, ht]
    norm_num

/-- C4 counterexample: an update supplying a new amount followed by an
unparseable date string returns failure, yet the amount supplied before
the date field has been applied to the stored record. -/
theorem update_partial_mutation_cex :
    update_record [recInc10] 1 kwBadDate =
      (false, [{ recInc10 with amount := 99 }]) ∧
    recInc10.amount = 10 := by
  decide

/-- C10: updates whose field names are not attributes of the record are
silently skipped: any call behaves exactly like the call with the unknown
field names dropped, and a call supplying only unknown field names
returns true with the record list unchanged. -/
theorem update_unknown_fields_ignored (records : List Record) (id : Int)
    (kw : List (String × UpdVal)) (rec : Record)
    (h1 : get_record records id = some rec) :
    update_record records id kw =
      update_record records id (kw.filter (fun kv => hasattrKey kv.1)) ∧
    ((∀ kv ∈ kw, hasattrKey kv.1 = false) →
      update_record records id kw = (true, records)) := by
  constructor
  · unfold update_record
    rw [h1]
    dsimp only
    rw [applyKwargs_filter kw rec]
  · intro h2
    unfold update_record
    rw [h1]
    simp only [applyKwargs_unknown rec kw h2]
    rw [replaceFirst_found_self records id rec h1]

/-- Witness for C10 at a concrete record and unknown field name. -/
theorem update_unknown_fields_ignored_witness :
    update_record [recInc10] 1 [("flavor", UpdVal.vnum 1)] =
      (true, [recInc10]) :=
  (update_unknown_fields_ignored [recInc10] 1 [("flavor", UpdVal.vnum 1)]
    recInc10 rfl).2 (by decide)

/-- C8: every month bucket produced by the trend analysis satisfies
balance = income - expense, whatever the transaction sequence — the
balance always reflects the bucket totals after all of its transactions
have been folded in. -/
theorem mem_updateKey (m : List (String × Bucket)) (k : String)
    (f : Bucket → Bucket) (p : String × Bucket) (hp : p ∈ updateKey m k f) :
    p ∈ m ∨ ∃ b, p.2 = f b := by
  induction m with
  | nil => simp [updateKey] at hp
  | cons q t ih =>
    obtain ⟨a, bkt⟩ := q
    simp only [updateKey] at hp
    by_cases hak : a = k
    · rw [if_pos hak] at hp
      rcases List.mem_cons.mp hp with hp | hp
      · right; exact ⟨bkt, by rw [hp]⟩
      · left; exact List.mem_cons_of_mem _ hp
    · rw [if_neg hak] at hp
      rcases List.mem_cons.mp hp with hp | hp
      · left; rw [hp]; exact List.mem_cons_self _ _
      · rcases ih hp with h | h
        · left; exact List.mem_cons_of_mem _ h
        · right; exact h

theorem trend_balance_consistent (records : List Record) :
    ∀ p ∈ get_trend_analysis records,
      p.2.balance = p.2.income - p.2.expense := by
  have hstep : ∀ (acc : List (String × Bucket)) (r : Record),
      (∀ p ∈ acc, p.2.balance = p.2.income - p.2.expense) →
      ∀ p ∈ trendStep acc r, p.2.balance = p.2.income - p.2.expense := by
    intro acc r hacc p hp
    simp only [trendStep] at hp
    rcases mem_updateKey _ _ _ p hp with h | ⟨b, hb⟩
    · by_cases hc : containsKey acc (monthKey r.record_date)
      · rw [if_pos hc] at h
        exact hacc p h
      · rw [if_neg hc] at h
        rcases List.mem_append.mp h with h | h
        · exact hacc p h
        · rw [List.mem_singleton.mp h]
          norm_num
    · rw [hb]
  have hfold : ∀ (l : List Record) (acc : List (String × Bucket)),
      (∀ p ∈ acc, p.2.balance = p.2.income - p.2.expense) →
      ∀ p ∈ l.foldl trendStep acc, p.2.balance = p.2.income - p.2.expense := by
    intro l
    induction l with
    | nil => intro acc hacc; exact hacc
    | cons r rest ih =>
      intro acc hacc
      exact ih (trendStep acc r) (hstep acc r hacc)
  exact hfold records [] (fun p hp => absurd hp (List.not_mem_nil p))

/-- Witness for C8: the December bucket of two same-month transactions
(income 30, expense 12) satisfies 18 = 30 - 12. -/
theorem trend_balance_consistent_witness :
    ("2025-12", (⟨30, 12, 18⟩ : Bucket)) ∈ get_trend_analysis trendRecords ∧
    (18 : ℚ) = 30 - 12 := by
  have hk1 : monthKey ⟨2025, 12, 1⟩ = "2025-12" := rfl
  have hk2 : monthKey ⟨2025, 12, 9⟩ = "2025-12" := rfl
  have hT : get_trend_analysis trendRecords =
      [("2025-12", (⟨30, 12, 18⟩ : Bucket))] := by
    simp [get_trend_analysis, trendRecords, List.foldl, trendStep,
      containsKey, updateKey, hk1, hk2]
    norm_num
  refine ⟨by rw [hT]; exact List.mem_singleton.mpr rfl, ?_⟩
  exact trend_balance_consistent trendRecords
    ("2025-12", (⟨30, 12, 18⟩ : Bucket)) (by rw [hT]; simp)

/-- C9 counterexample: supplying the empty string as the store filter is
falsy in Python, so the filter is skipped: a record whose store does not
match the supplied filter is still returned. -/
theorem search_empty_filter_cex :
    (advanced_search [recStoreX] [] (some "") none none none).1 =
      [recStoreX] ∧
    ¬ (lowerStr recStoreX.store = lowerStr "") := by
  decide

/-- C4 amended: update returns false without touching anything when the
id is unknown; when every supplied update is good (no unparseable date
string) all updates are applied in order and true is returned; when an
unparseable date string is supplied, false is returned but the updates
listed before the failing field have already been applied to the stored
record — the operation is not all-or-nothing. -/
theorem update_record_behavior (records : List Record) (id : Int)
    (kw : List (String × UpdVal)) :
    (get_record records id = none →
      update_record records id kw = (false, records)) ∧
    (∀ rec, get_record records id = some rec →
      ((∀ kv ∈ kw, updGood kv = true) →
        update_record records id kw =
          (true, replaceFirst records id (applyList rec kw))) ∧
      (∀ pre bad post, kw = pre ++ bad :: post →
        (∀ kv ∈ pre, updGood kv = true) → updGood bad = false →
        update_record records id kw =
          (false, replaceFirst records id (applyList rec pre)))) := by
  constructor
  · intro hnone
    unfold update_record
    rw [hnone]
  · intro rec hrec
    constructor
    · intro hgood
      unfold update_record
      rw [hrec]
      dsimp only
      rw [applyKwargs_good kw rec hgood]
    · intro pre bad post hkw hpre hbad
      unfold update_record
      rw [hrec, hkw]
      dsimp only
      rw [applyKwargs_bad pre rec bad post hpre hbad]

/-- Witness for C4 at a concrete record: a good amount update is applied
and true returned. -/
theorem update_record_behavior_witness :
    update_record [recInc10] 1 [("amount", UpdVal.vnum 42)] =
      (true, [{ recInc10 with amount := 42 }]) := by
  have h := ((update_record_behavior [recInc10] 1
    [("amount", UpdVal.vnum 42)]).2 recInc10 rfl).1 (by decide)
  rw [h]
  rfl

/-- C9 amended: the combined search filters the input by the conjunction
of the supplied filters, where a string filter counts as supplied only
when it is non-None and nonempty (Python truthiness: an empty string
filter is ignored like an absent one), string matching is
case-insensitive and exact, the date range is inclusive on both ends and
applied only when both bounds are present, and each invocation appends
exactly one description entry to the history. -/
theorem advanced_search_spec (records : List Record) (history : List String)
    (store category : Option String) (start stop : Option PyDate) :
    (advanced_search records history store category start stop).1 =
      records.filter (fun r =>
        passStore store r && passCategory category r &&
          passRange start stop r) ∧
    (advanced_search records history store category start stop).2 =
      history ++ [advancedDesc store category start stop] := by
  constructor
  · rw [advanced_search_stages, stageStore_eq, stageCategory_eq,
      stageRange_eq, filterComb, filterComb]
    exact List.filter_congr fun a _ => by rw [Bool.and_assoc]
  · rcases store with _ | s <;> rcases category with _ | c <;>
      rcases start with _ | d₁ <;> rcases stop with _ | d₂ <;> rfl

end AccountingApp
